import Mathlib

/-!
Verification of the RKD record-to-schema conversion script (src/main.py).

The Python functions relevant to the claims are shallowly embedded as
executable Lean definitions:

* `parseDate` (with `expandBegin`, `expandEnd`, `monthrangeLast`) models
  date normalization, including the `calendar.monthrange` last-day rule;
* `getQuantitativeValue` (with `stripMeasure`, `pyFloat?`) models
  measurement normalization, with Python floats modelled as rationals;
* `unique` models the uuid5-based pseudo-identity minting, with a full
  SHA-1 implementation so the minted value is concrete;
* `getEventLabel` models bilingual event label derivation, with the Python
  `sorted` builtin modelled by a stable insertion sort on code points;
* `getThesaurus`/`resolveList` model the recursive, depth-bounded
  thesaurus resolution over an explicit cache, with the two locale fetches
  (`parseThesaurusURL`, an external HTTP concern) taken as function
  parameters and a raised exception modelled as `none`;
* `parseDataFamily`/`getPersonMarriages` model the family-relation part
  of `parseData`/`getPerson`.

Python specifics kept by the model: string truthiness (empty string and
`None` are falsy), `str.replace`, `str.split`, `int()` and `float()`
parsing failures, dictionary lookup, and exceptions (modelled as `none`
or a dedicated constructor where the claims need to observe them).
-/

/-- Python truthiness of an optional string value: `None` and the empty
string are falsy, every other string is truthy. -/
def pyTruthy : Option String → Bool
  | none => false
  | some s => !s.data.isEmpty

/-- Splitting a character list at every occurrence of a separator, the
semantics of Python `str.split(sep)` (adjacent separators yield empty
pieces, the empty input yields one empty piece). -/
def splitOnCharList (sep : Char) : List Char → List (List Char)
  | [] => [[]]
  | c :: rest =>
    let r := splitOnCharList sep rest
    if c = sep then [] :: r
    else
      match r with
      | [] => [[c]]
      | h :: t => (c :: h) :: t

/-- Python `s.split(sep)` for a one-character separator, on strings. -/
def splitOnChar (sep : Char) (s : String) : List String :=
  (splitOnCharList sep s.data).map String.mk

/-- Numeric value of a list of decimal digit characters. -/
def digitsToNat (l : List Char) : Nat :=
  l.foldl (fun a c => 10 * a + (c.toNat - 48)) 0

/-- Python `int(s)` restricted to plain base-10 numerals: every character
must be a decimal digit and the string must be nonempty, otherwise a
`ValueError` is raised (modelled as `none`). -/
def pyInt? (s : String) : Option Nat :=
  if s.data ≠ [] ∧ s.data.all Char.isDigit then some (digitsToNat s.data)
  else none

/-- Leap year test of Python `calendar.isleap`. -/
def isleap (y : Nat) : Bool :=
  y % 4 == 0 && (y % 100 != 0 || y % 400 == 0)

/-- Month length table of Python `calendar.mdays` (index 0 unused). -/
def mdays : List Nat := [0, 31, 28, 31, 30, 31, 30, 31, 31, 30, 31, 30, 31]

/-- Number-of-days component of Python `calendar.monthrange year month`:
the last day of the month, accounting for leap years.  `none` models the
`IllegalMonthError` for a month outside 1..12 and the `ValueError` of the
underlying `datetime.date` for a year outside 1..9999. -/
def monthrangeLast (y m : Nat) : Option Nat :=
  if 1 ≤ m ∧ m ≤ 12 ∧ 1 ≤ y ∧ y ≤ 9999 then
    some (if m == 2 && isleap y then 29 else mdays.getD m 0)
  else none

/-- Begin-role expansion of `parseDate`: a truthy 4-character value gets
`-01-01` appended, a truthy 7-character value gets `-01` appended,
anything else is passed through. -/
def expandBegin : Option String → Option String
  | none => none
  | some b =>
    if b.length = 4 then some (b ++ "-01-01")
    else if b.length = 7 then some (b ++ "-01")
    else some b

/-- End-role expansion of `parseDate`: a truthy 4-character value gets
`-12-31` appended; for a truthy 7-character value the string is split at
`-`, the parts are parsed as year and month, and the last day of that
month (per `calendar.monthrange`) is appended.  The outer `none` models
the exceptions `parseDate` can raise while expanding the end value
(unpacking a split with other than two parts, `int()` on a non-numeral,
`calendar.monthrange` on an invalid month). -/
def expandEnd : Option String → Option (Option String)
  | none => some none
  | some e =>
    if e.length = 4 then some (some (e ++ "-12-31"))
    else if e.length = 7 then
      match splitOnChar '-' e with
      | [ys, ms] =>
        match pyInt? ys, pyInt? ms with
        | some y, some m => (monthrangeLast y m).map (fun d => some (e ++ "-" ++ toString d))
        | _, _ => none
      | _ => none
    else some (some e)

/-- Embedding of `parseDate(begin, end)` from src/main.py.  The result is
`none` when the Python function raises, otherwise a triple
`(timeStamp, earliestBeginTimeStamp, latestEndTimeStamp)` of optional
date strings (a `Literal` with datatype `xsd:date` in the source). -/
def parseDate (begin end_ : Option String) : Option (Option String × Option String × Option String) :=
  let b := expandBegin begin
  match expandEnd end_ with
  | none => none
  | some e =>
    if pyTruthy b ∧ b = e then some (b, b, b)
    else if pyTruthy b ∧ pyTruthy e then some (none, b, e)
    else if pyTruthy b then some (none, b, none)
    else some (none, none, none)

/-! Generic helper lemmas about the string-level helpers. -/

theorem splitOnCharList_no_sep {sep : Char} {l : List Char} (h : sep ∉ l) :
    splitOnCharList sep l = [l] := by
  induction l with
  | nil => rfl
  | cons c rest ih =>
    have hc : c ≠ sep := fun hc => h (hc ▸ List.mem_cons_self c rest)
    have hrest : sep ∉ rest := fun hm => h (List.mem_cons_of_mem c hm)
    simp [splitOnCharList, hc, ih hrest]

theorem splitOnCharList_append {sep : Char} {xs : List Char} (ys : List Char)
    (h : sep ∉ xs) :
    splitOnCharList sep (xs ++ sep :: ys) = xs :: splitOnCharList sep ys := by
  induction xs with
  | nil => simp [splitOnCharList]
  | cons c rest ih =>
    have hc : c ≠ sep := fun hc => h (hc ▸ List.mem_cons_self c rest)
    have hrest : sep ∉ rest := fun hm => h (List.mem_cons_of_mem c hm)
    have := ih hrest
    simp [splitOnCharList, hc, this]

theorem mk_data_eq (s : String) : String.mk s.data = s := by
  cases s
  rfl

theorem splitOnChar_two {ys ms : String}
    (hy : '-' ∉ ys.data) (hm : '-' ∉ ms.data) :
    splitOnChar '-' (ys ++ "-" ++ ms) = [ys, ms] := by
  have hdata : (ys ++ "-" ++ ms).data = ys.data ++ '-' :: ms.data := by
    simp [String.data_append]
  rw [splitOnChar, hdata, splitOnCharList_append _ hy, splitOnCharList_no_sep hm]
  simp [mk_data_eq]

theorem pyTruthy_append_right (a b : String) (h : b.data ≠ []) :
    pyTruthy (some (a ++ b)) = true := by
  simp only [pyTruthy, String.data_append]
  cases hb : b.data with
  | nil => exact absurd hb h
  | cons x xs =>
    simp [hb]

theorem append_right_ne {a : String} {b c : String} (h : b ≠ c) :
    a ++ b ≠ a ++ c := by
  intro he
  apply h
  have hd := congrArg String.data he
  simp only [String.data_append] at hd
  have := List.append_cancel_left hd
  calc b = String.mk b.data := (mk_data_eq b).symm
    _ = String.mk c.data := by rw [this]
    _ = c := mk_data_eq c

/-! Facts about `parseDate` needed for the claims on date normalization. -/

theorem expandBegin_four {y : String} (hy : y.length = 4) :
    expandBegin (some y) = some (y ++ "-01-01") := by
  simp [expandBegin, hy]

theorem expandEnd_four {y : String} (hy : y.length = 4) :
    expandEnd (some y) = some (some (y ++ "-12-31")) := by
  simp [expandEnd, hy]

theorem parseDate_year_year {y : String} (hy : y.length = 4) :
    parseDate (some y) (some y)
      = some (none, some (y ++ "-01-01"), some (y ++ "-12-31")) := by
  have hne : ¬ ((y ++ "-01-01") = (y ++ "-12-31")) :=
    append_right_ne (by decide)
  have h01 : pyTruthy (some (y ++ "-01-01")) = true :=
    pyTruthy_append_right y "-01-01" (by decide)
  have h31 : pyTruthy (some (y ++ "-12-31")) = true :=
    pyTruthy_append_right y "-12-31" (by decide)
  simp [parseDate, expandBegin_four hy, expandEnd_four hy, hne, h01, h31]

theorem parseDate_full_equal {b : String} (hb : b.length = 10) :
    parseDate (some b) (some b) = some (some b, some b, some b) := by
  have hb4 : ¬ (b.length = 4) := by omega
  have hb7 : ¬ (b.length = 7) := by omega
  have hlen : b.data.length = 10 := by
    cases b
    exact hb
  have hdata : b.data ≠ [] := by
    intro h
    rw [h] at hlen
    simp at hlen
  have htr : pyTruthy (some b) = true := by
    simp [pyTruthy, hdata]
  have h1 : expandBegin (some b) = some b := by
    simp [expandBegin, hb4, hb7]
  have h2 : expandEnd (some b) = some (some b) := by
    simp [expandEnd, hb4, hb7]
  simp only [parseDate, h1, h2, htr]
  simp

/-- Claim C1 (amended): for a pair of equal 4-character year strings,
`parseDate` expands the begin to `YYYY-01-01` and the end to `YYYY-12-31`,
so it returns an interval with those two endpoints and no exact
timestamp; a single exact timestamp is produced only when the expanded
begin equals the expanded end, e.g. for equal full 10-character dates. -/
theorem parseDate_equal_years_amended :
    (∀ y : String, y.length = 4 →
      parseDate (some y) (some y)
        = some (none, some (y ++ "-01-01"), some (y ++ "-12-31"))) ∧
    (∀ b : String, b.length = 10 →
      parseDate (some b) (some b) = some (some b, some b, some b)) :=
  ⟨fun _ hy => parseDate_year_year hy, fun _ hb => parseDate_full_equal hb⟩

/-- Witness for `parseDate_equal_years_amended` at the concrete inputs
`"1600"` and `"1600-05-12"`. -/
theorem parseDate_equal_years_amended_witness :
    parseDate (some "1600") (some "1600")
        = some (none, some ("1600" ++ "-01-01"), some ("1600" ++ "-12-31")) ∧
    parseDate (some "1600-05-12") (some "1600-05-12")
        = some (some "1600-05-12", some "1600-05-12", some "1600-05-12") :=
  ⟨parseDate_equal_years_amended.1 "1600" (by decide),
   parseDate_equal_years_amended.2 "1600-05-12" (by decide)⟩

/-- Counterexample to claim C1 as stated: for `begin="1600", end="1600"`
the code returns no exact timestamp at all but the interval
`[1600-01-01, 1600-12-31]`, while the claim requires the single exact
timestamp `1600-01-01` with agreeing endpoints. -/
theorem parseDate_equal_years_counterexample :
    parseDate (some "1600") (some "1600")
      = some (none, some "1600-01-01", some "1600-12-31") ∧
    some ((none : Option String), some "1600-01-01", some "1600-12-31")
      ≠ some (some "1600-01-01", some "1600-01-01", some "1600-01-01") := by
  constructor
  · decide
  · decide

/-- Claim C5 (amended): when the begin date string is absent, `parseDate`
returns no temporal value at all — timestamp, earliest and latest are all
`none` — even when the end date string is present (the expanded end value
is discarded by the final branch ladder). -/
theorem parseDate_end_only_amended :
    ∀ e : Option String, (expandEnd e).isSome = true →
      parseDate none e = some (none, none, none) := by
  intro e he
  match h : expandEnd e with
  | none => rw [h] at he; simp at he
  | some e' =>
    simp [parseDate, expandBegin, h, pyTruthy]

/-- Witness for `parseDate_end_only_amended` at the concrete input
`end="1650"`. -/
theorem parseDate_end_only_amended_witness :
    parseDate none (some "1650") = some (none, none, none) :=
  parseDate_end_only_amended (some "1650") (by decide)

/-- Counterexample to claim C5 as stated: with `begin=None, end="1650"`
the code returns no temporal value at all, not an open interval with only
the latest endpoint `1650-12-31` set. -/
theorem parseDate_end_only_counterexample :
    parseDate none (some "1650") = some (none, none, none) ∧
    some ((none : Option String), (none : Option String), (none : Option String))
      ≠ some ((none : Option String), (none : Option String), some "1650-12-31") := by
  constructor
  · decide
  · decide

theorem ym_length {ys ms : String} (h4 : ys.length = 4) (h2 : ms.length = 2) :
    (ys ++ "-" ++ ms).length = 7 := by
  have hd : ("-" : String).length = 1 := by decide
  simp [String.length_append, h4, h2, hd]

theorem parseDate_begin_month {ys ms : String}
    (h4 : ys.length = 4) (h2 : ms.length = 2) :
    parseDate (some (ys ++ "-" ++ ms)) none
      = some (none, some ((ys ++ "-" ++ ms) ++ "-01"), none) := by
  have hlen := ym_length h4 h2
  have hb : expandBegin (some (ys ++ "-" ++ ms)) = some ((ys ++ "-" ++ ms) ++ "-01") := by
    have : ¬ ((ys ++ "-" ++ ms).length = 4) := by omega
    simp [expandBegin, this, hlen]
  have htr : pyTruthy (some ((ys ++ "-" ++ ms) ++ "-01")) = true :=
    pyTruthy_append_right _ "-01" (by decide)
  simp [parseDate, hb, expandEnd, htr, pyTruthy]

theorem expandEnd_month {ys ms : String} {y m d : Nat}
    (h4 : ys.length = 4) (h2 : ms.length = 2)
    (hys : '-' ∉ ys.data) (hms : '-' ∉ ms.data)
    (hy : pyInt? ys = some y) (hm : pyInt? ms = some m)
    (hd : monthrangeLast y m = some d) :
    expandEnd (some (ys ++ "-" ++ ms))
      = some (some ((ys ++ "-" ++ ms) ++ "-" ++ toString d)) := by
  have hlen := ym_length h4 h2
  have hn4 : ¬ ((ys ++ "-" ++ ms).length = 4) := by omega
  simp [expandEnd, hn4, hlen, splitOnChar_two hys hms, hy, hm, hd]

/-- Claim C7: `parseDate` expands a 7-character begin value to the first
day of the month (appending `-01`) and a 7-character end value to the
last day of the month from `calendar.monthrange` (leap years included);
`begin="1600-02"` alone yields an open interval with earliest
`1600-02-01` and no latest, `begin="1600", end="1650"` yields the
interval `[1600-01-01, 1650-12-31]` with no exact timestamp, and a
February end in the leap year 1604 becomes day 29 (against 28 in the
non-leap century year 1700). -/
theorem parseDate_month_expansion :
    (∀ ys ms : String, ys.length = 4 → ms.length = 2 →
      parseDate (some (ys ++ "-" ++ ms)) none
        = some (none, some ((ys ++ "-" ++ ms) ++ "-01"), none)) ∧
    (∀ (ys ms : String) (y m d : Nat), ys.length = 4 → ms.length = 2 →
      '-' ∉ ys.data → '-' ∉ ms.data →
      pyInt? ys = some y → pyInt? ms = some m → monthrangeLast y m = some d →
      expandEnd (some (ys ++ "-" ++ ms))
        = some (some ((ys ++ "-" ++ ms) ++ "-" ++ toString d))) ∧
    parseDate (some "1600-02") none = some (none, some "1600-02-01", none) ∧
    parseDate (some "1600") (some "1650")
      = some (none, some "1600-01-01", some "1650-12-31") ∧
    parseDate (some "1604-02") (some "1604-02")
      = some (none, some "1604-02-01", some "1604-02-29") ∧
    parseDate (some "1700-02") (some "1700-02")
      = some (none, some "1700-02-01", some "1700-02-28") := by
  refine ⟨fun ys ms h4 h2 => parseDate_begin_month h4 h2,
    fun ys ms y m d h4 h2 hys hms hy hm hd =>
      expandEnd_month h4 h2 hys hms hy hm hd, ?_, ?_, ?_, ?_⟩
  · decide
  · decide
  · decide
  · decide

/-- Witness for `parseDate_month_expansion` at the concrete year-month
strings `"1600-02"` (begin role) and `"1604-02"` (end role, leap year). -/
theorem parseDate_month_expansion_witness :
    parseDate (some ("1600" ++ "-" ++ "02")) none
      = some (none, some (("1600" ++ "-" ++ "02") ++ "-01"), none) ∧
    expandEnd (some ("1604" ++ "-" ++ "02"))
      = some (some (("1604" ++ "-" ++ "02") ++ "-" ++ toString 29)) :=
  ⟨parseDate_month_expansion.1 "1600" "02" (by decide) (by decide),
   parseDate_month_expansion.2.1 "1604" "02" 1604 2 29 (by decide) (by decide)
     (by decide) (by decide) (by decide) (by decide) (by decide)⟩

/-! Measurement normalization: `getQuantitativeValue` from src/main.py.
Python floats are modelled as rationals; the decimal strings occurring in
measurements are exactly representable, so only the final binary rounding
of CPython is abstracted away. -/

/-- Recursion core of Python `str.replace`: replaces every non-overlapping
occurrence of `pat` from the left.  Each step consumes at least one
character, so a fuel equal to the input length makes the recursion total
without changing its semantics. -/
def pyReplaceAux (pat rep : List Char) : Nat → List Char → List Char
  | _, [] => []
  | 0, l => l
  | fuel + 1, c :: rest =>
    if pat.isPrefixOf (c :: rest) then
      rep ++ pyReplaceAux pat rep fuel (List.drop (pat.length - 1) rest)
    else
      c :: pyReplaceAux pat rep fuel rest

/-- Python `s.replace(pat, rep)` for a nonempty pattern. -/
def pyReplace (s pat rep : String) : String :=
  String.mk (pyReplaceAux pat.data rep.data s.data.length s.data)

/-- The stripping chain of `getQuantitativeValue`:
`value.replace(',', '.').replace(' ', '').replace('c.', '').replace('ca', '').replace('cm', '')`. -/
def stripMeasure (v : String) : String :=
  pyReplace (pyReplace (pyReplace (pyReplace (pyReplace v "," ".") " " "") "c." "") "ca" "") "cm" ""

/-- Fraction-free part of Python `float(s)`: an optional sign followed by
decimal digits with at most one decimal point, at least one digit in
total; anything else raises `ValueError` (modelled as `none`).  Exponent
notation never occurs in the measurement strings and is not modelled. -/
def pyFloatParse (cs : List Char) : Option ℚ :=
  match splitOnCharList '.' cs with
  | [ip, fp] =>
    if (ip ++ fp) ≠ [] ∧ (ip ++ fp).all Char.isDigit then
      some ((digitsToNat ip : ℚ) + (digitsToNat fp : ℚ) / (10 : ℚ) ^ fp.length)
    else none
  | [ip] =>
    if ip ≠ [] ∧ ip.all Char.isDigit then some ((digitsToNat ip : ℚ)) else none
  | _ => none

/-- Python `float(s)` on the string shapes reachable in this program. -/
def pyFloat? (s : String) : Option ℚ :=
  match s.data with
  | '-' :: rest => (pyFloatParse rest).map (fun q => -q)
  | '+' :: rest => pyFloatParse rest
  | cs => pyFloatParse cs

/-- The `schema:QuantitativeValue` node built by `getQuantitativeValue`:
a unit code and a numeric value. -/
structure QuantitativeValue where
  unitCode : String
  value : ℚ
deriving DecidableEq

/-- Observable outcome of `getQuantitativeValue`: a value was emitted, the
input was skipped silently (`None` or `"?"` or empty), or parsing failed
after stripping, in which case the function prints a diagnostic with the
stripped string and returns `None` without raising. -/
inductive QVResult where
  | emitted (qv : QuantitativeValue)
  | skipped
  | failedDiagnostic (incorrect : String)
deriving DecidableEq

/-- Embedding of `getQuantitativeValue(value)` from src/main.py. -/
def getQuantitativeValue (value : Option String) : QVResult :=
  match value with
  | none => .skipped
  | some v =>
    if pyTruthy (some v) ∧ v ≠ "?" then
      match pyFloat? (stripMeasure v) with
      | some q => .emitted ⟨"MTR", q / 100⟩
      | none => .failedDiagnostic (stripMeasure v)
    else .skipped

theorem getQuantitativeValue_emits {v : String} {q : ℚ}
    (htr : pyTruthy (some v) = true) (hq : v ≠ "?")
    (hp : pyFloat? (stripMeasure v) = some q) :
    getQuantitativeValue (some v) = .emitted ⟨"MTR", q / 100⟩ := by
  simp [getQuantitativeValue, htr, hq, hp]

theorem getQuantitativeValue_fails {v : String}
    (htr : pyTruthy (some v) = true) (hq : v ≠ "?")
    (hp : pyFloat? (stripMeasure v) = none) :
    getQuantitativeValue (some v) = .failedDiagnostic (stripMeasure v) := by
  simp [getQuantitativeValue, htr, hq, hp]

/-- Claim C8: measurement strings are stripped of comma separators,
spaces, approximation markers and the unit suffix, parsed as a float and
divided by 100 into a `QuantitativeValue` with unit code `"MTR"`
(`"45,5 cm"` gives value 0.455); `"?"` yields no value; a string that
still fails to parse (like `"abc"`) yields no value and a diagnostic, and
does not raise. -/
theorem getQuantitativeValue_normalization :
    (∀ (v : String) (q : ℚ), pyTruthy (some v) = true → v ≠ "?" →
      pyFloat? (stripMeasure v) = some q →
      getQuantitativeValue (some v) = .emitted ⟨"MTR", q / 100⟩) ∧
    (∀ v : String, pyTruthy (some v) = true → v ≠ "?" →
      pyFloat? (stripMeasure v) = none →
      getQuantitativeValue (some v) = .failedDiagnostic (stripMeasure v)) ∧
    getQuantitativeValue (some "45,5 cm") = .emitted ⟨"MTR", 0.455⟩ ∧
    getQuantitativeValue (some "?") = .skipped ∧
    getQuantitativeValue (some "abc") = .failedDiagnostic "abc" := by
  refine ⟨fun v q htr hq hp => getQuantitativeValue_emits htr hq hp,
    fun v htr hq hp => getQuantitativeValue_fails htr hq hp, ?_, ?_, ?_⟩
  · have hstrip : stripMeasure "45,5 cm" = "45.5" := by decide
    have hsplit : splitOnCharList '.' ("45.5").data = [['4', '5'], ['5']] := by decide
    have hparse : pyFloat? "45.5" = some ((45 : ℚ) + (5 : ℚ) / (10 : ℚ) ^ 1) := by
      have h45 : digitsToNat ['4', '5'] = 45 := by decide
      have h5 : digitsToNat ['5'] = 5 := by decide
      simp [pyFloat?, pyFloatParse, hsplit, h45, h5]
    rw [getQuantitativeValue_emits (by decide) (by decide) (hstrip ▸ hparse)]
    have : ((45 : ℚ) + (5 : ℚ) / (10 : ℚ) ^ 1) / 100 = 0.455 := by norm_num
    rw [this]
  · decide
  · decide

/-- Witness for `getQuantitativeValue_normalization` at the concrete
failing input `"abc"`, discharging the hypotheses of its second general
conjunct. -/
theorem getQuantitativeValue_normalization_witness :
    getQuantitativeValue (some "abc") = .failedDiagnostic (stripMeasure "abc") :=
  getQuantitativeValue_normalization.2.1 "abc" (by decide) (by decide) (by decide)

/-! Identity minting: `unique(*args)` from src/main.py builds
`BNode(uuid5(uuid.NAMESPACE_X500, "".join(str(i) for i in args)))`.
The uuid5 construction (SHA-1 of namespace bytes plus the UTF-8 encoded
name, truncated to 16 bytes with version and variant bits forced) is
implemented below over `Nat` byte lists, so the minted identifier is a
concrete hex string as in the source. -/

/-- Left rotation of a 32-bit word held in a `Nat`. -/
def rotl32 (n x : Nat) : Nat :=
  ((x <<< n) ||| (x >>> (32 - n))) % 4294967296

/-- Round function of SHA-1 (choice, parity, majority, parity). -/
def sha1F (i b c d : Nat) : Nat :=
  if i < 20 then (b &&& c) ||| ((4294967295 ^^^ b) &&& d)
  else if i < 40 then b ^^^ c ^^^ d
  else if i < 60 then (b &&& c) ||| (b &&& d) ||| (c &&& d)
  else b ^^^ c ^^^ d

/-- Round constants of SHA-1. -/
def sha1K (i : Nat) : Nat :=
  if i < 20 then 0x5A827999
  else if i < 40 then 0x6ED9EBA1
  else if i < 60 then 0x8F1BBCDC
  else 0xCA62C1D6

/-- Big-endian 32-bit word from four bytes. -/
def beWord (b0 b1 b2 b3 : Nat) : Nat :=
  ((b0 * 256 + b1) * 256 + b2) * 256 + b3

/-- The sixteen big-endian words of one 64-byte chunk. -/
def chunkWords (chunk : List Nat) : List Nat :=
  (List.range 16).map (fun i =>
    beWord (chunk.getD (4 * i) 0) (chunk.getD (4 * i + 1) 0)
      (chunk.getD (4 * i + 2) 0) (chunk.getD (4 * i + 3) 0))

/-- Message-schedule extension of SHA-1 from 16 to 80 words (64 steps). -/
def extendWords : Nat → List Nat → List Nat
  | 0, ws => ws
  | k + 1, ws =>
    let i := ws.length
    let w := rotl32 1 ((ws.getD (i - 3) 0) ^^^ (ws.getD (i - 8) 0) ^^^
      (ws.getD (i - 14) 0) ^^^ (ws.getD (i - 16) 0))
    extendWords k (ws ++ [w])

/-- One of the 80 SHA-1 rounds. -/
def sha1Round (ws : List Nat) (st : Nat × Nat × Nat × Nat × Nat) (i : Nat) :
    Nat × Nat × Nat × Nat × Nat :=
  let (a, b, c, d, e) := st
  let temp := (rotl32 5 a + sha1F i b c d + e + sha1K i + ws.getD i 0) % 4294967296
  (temp, a, rotl32 30 b, c, d)

/-- SHA-1 compression of one 64-byte chunk into the running state. -/
def processChunk (st : Nat × Nat × Nat × Nat × Nat) (chunk : List Nat) :
    Nat × Nat × Nat × Nat × Nat :=
  let ws := extendWords 64 (chunkWords chunk)
  let r := (List.range 80).foldl (sha1Round ws) st
  ((st.1 + r.1) % 4294967296,
   (st.2.1 + r.2.1) % 4294967296,
   (st.2.2.1 + r.2.2.1) % 4294967296,
   (st.2.2.2.1 + r.2.2.2.1) % 4294967296,
   (st.2.2.2.2 + r.2.2.2.2) % 4294967296)

/-- Folding the chunk compression over `k` consecutive 64-byte chunks. -/
def processChunks : Nat → List Nat → (Nat × Nat × Nat × Nat × Nat) →
    Nat × Nat × Nat × Nat × Nat
  | 0, _, st => st
  | k + 1, bytes, st => processChunks k (bytes.drop 64) (processChunk st (bytes.take 64))

/-- Big-endian byte expansion of a `Nat` to a fixed width. -/
def toBytesBE : Nat → Nat → List Nat
  | 0, _ => []
  | k + 1, n => toBytesBE k (n / 256) ++ [n % 256]

/-- SHA-1 padding: a 0x80 byte, zeros to 56 mod 64, then the bit length
as a 64-bit big-endian integer. -/
def sha1Pad (msg : List Nat) : List Nat :=
  msg ++ [128] ++ List.replicate ((120 - ((msg.length + 1) % 64)) % 64) 0 ++
    toBytesBE 8 (msg.length * 8)

/-- The 20-byte SHA-1 digest of a byte list. -/
def sha1Digest (msg : List Nat) : List Nat :=
  let padded := sha1Pad msg
  let h := processChunks (padded.length / 64) padded
    (0x67452301, 0xEFCDAB89, 0x98BADCFE, 0x10325476, 0xC3D2E1F0)
  toBytesBE 4 h.1 ++ toBytesBE 4 h.2.1 ++ toBytesBE 4 h.2.2.1 ++
    toBytesBE 4 h.2.2.2.1 ++ toBytesBE 4 h.2.2.2.2

/-- UTF-8 encoding of one character as bytes. -/
def utf8Bytes (c : Char) : List Nat :=
  let n := c.toNat
  if n < 128 then [n]
  else if n < 2048 then [192 + n / 64, 128 + n % 64]
  else if n < 65536 then [224 + n / 4096, 128 + (n / 64) % 64, 128 + n % 64]
  else [240 + n / 262144, 128 + (n / 4096) % 64, 128 + (n / 64) % 64, 128 + n % 64]

/-- UTF-8 byte encoding of a string, `s.encode(\x27utf-8\x27)` in Python. -/
def strBytes (s : String) : List Nat :=
  s.data.foldr (fun c acc => utf8Bytes c ++ acc) []

/-- The sixteen bytes of `uuid.NAMESPACE_X500`,
`6ba7b814-9dad-11d1-80b4-00c04fd430c8`. -/
def namespaceX500 : List Nat :=
  [0x6b, 0xa7, 0xb8, 0x14, 0x9d, 0xad, 0x11, 0xd1,
   0x80, 0xb4, 0x00, 0xc0, 0x4f, 0xd4, 0x30, 0xc8]

/-- Lowercase hexadecimal digit. -/
def hexDigit (n : Nat) : Char :=
  if n < 10 then Char.ofNat (48 + n) else Char.ofNat (87 + n)

/-- Two lowercase hex digits of a byte. -/
def byteHex (b : Nat) : List Char :=
  [hexDigit (b / 16), hexDigit (b % 16)]

/-- Hex rendering of a byte list. -/
def bytesHex (l : List Nat) : List Char :=
  l.foldr (fun b acc => byteHex b ++ acc) []

/-- The canonical 8-4-4-4-12 string form of a 16-byte UUID. -/
def uuidFormat (bytes : List Nat) : String :=
  String.mk (bytesHex (bytes.take 4) ++ '-' :: bytesHex ((bytes.drop 4).take 2) ++
    '-' :: bytesHex ((bytes.drop 6).take 2) ++ '-' :: bytesHex ((bytes.drop 8).take 2) ++
    '-' :: bytesHex (bytes.drop 10))

/-- Python `uuid.uuid5(namespace, name)`: SHA-1 of the namespace bytes
followed by the UTF-8 name, truncated to 16 bytes, with the version
nibble of byte 6 forced to 5 and the two variant bits of byte 8 forced
to 10. -/
def uuid5 (nsBytes : List Nat) (name : String) : String :=
  let digest := (sha1Digest (nsBytes ++ strBytes name)).take 16
  let b6 := (digest.getD 6 0) % 16 + 80
  let b8 := (digest.getD 8 0) % 64 + 128
  uuidFormat (digest.take 6 ++ [b6] ++ [digest.getD 7 0] ++ [b8] ++ digest.drop 9)

/-- Embedding of `unique(*args)` from src/main.py: the string identifier
of `BNode(uuid5(uuid.NAMESPACE_X500, "".join(str(i) for i in args)))`,
with the arguments already stringified by the caller. -/
def unique (args : List String) : String :=
  uuid5 namespaceX500 (String.join args)

/-- One Python value as it occurs inside the `set(...)` argument of the
Marriage-event call to `unique`: an integer person number or a string. -/
inductive PyVal where
  | int (n : Nat)
  | str (s : String)

/-- Python `repr` of such a value (strings are quoted). -/
def pyRepr : PyVal → String
  | .int n => toString n
  | .str s => String.singleton (Char.ofNat 39) ++ s ++ String.singleton (Char.ofNat 39)

/-- Python `str(set(...))` given the iteration order the interpreter
happens to use: the element reprs joined by commas inside braces.  The
iteration order of a Python set is not specified and varies with the
randomized string hash seed, so it is a parameter here. -/
def pySetRepr (elemsInIterationOrder : List PyVal) : String :=
  "\x7b" ++ String.intercalate ", " (elemsInIterationOrder.map pyRepr) ++ "\x7d"

set_option maxRecDepth 100000

/-- Claim C2 (amended): the minted pseudo-identity is deterministic and
free of randomness as a function of the concatenated stringified
arguments — equal concatenations always give the same `BNode` — but two
tuples with differing fields collide whenever their concatenations
coincide; and for the Marriage event, whose single argument is
`str(set(...))`, the concatenation itself depends on the iteration order
of the Python set, so two interpreter runs with different hash seeds can
mint different identities from the same marriage fields. -/
theorem unique_deterministic_amended :
    (∀ as bs : List String, String.join as = String.join bs →
      unique as = unique bs) ∧
    unique [pySetRepr [.int 123, .str "Anna", .str "marriage"]]
      ≠ unique [pySetRepr [.str "Anna", .int 123, .str "marriage"]] := by
  constructor
  · intro as bs h
    unfold unique
    rw [h]
  · decide

/-- Witness for `unique_deterministic_amended`: the identity depends only
on the concatenation, at the concrete argument lists
`["ab", "c"]` and `["a", "bc"]`. -/
theorem unique_deterministic_amended_witness :
    unique ["ab", "c"] = unique ["a", "bc"] :=
  unique_deterministic_amended.1 ["ab", "c"] ["a", "bc"] (by decide)

/-- Counterexample to claim C2 as stated: the tuples `(12, "3A")` and
`(123, "A")` differ in every field, yet `unique` concatenates the
stringified arguments without a separator before hashing, so both calls
hand `uuid5` the same string `"123A"` and mint the same identity. -/
theorem unique_collision_counterexample :
    unique [toString (12 : Nat), "3A"] = unique [toString (123 : Nat), "A"] ∧
    (toString (12 : Nat), "3A") ≠ (toString (123 : Nat), "A") := by
  constructor
  · unfold unique
    rw [show String.join [toString (12 : Nat), "3A"]
      = String.join [toString (123 : Nat), "A"] from by decide]
  · decide

/-! Event label derivation: `getEventLabel` from src/main.py.  The Python
`sorted` builtin on strings (ascending by Unicode code point, stable) is
modelled by an insertion sort over a code-point comparison on the
character lists. -/

/-- The five event classes of the source (`Birth`, `Baptism`, `Death`,
`Burial`, `Marriage`), the keys of `eventTranslationNL`. -/
inductive EventClass where
  | Birth
  | Baptism
  | Death
  | Burial
  | Marriage
deriving DecidableEq

/-- The English event name, `event.__class__.__name__` in the source. -/
def eventClassNameEN : EventClass → String
  | .Birth => "Birth"
  | .Baptism => "Baptism"
  | .Death => "Death"
  | .Burial => "Burial"
  | .Marriage => "Marriage"

/-- The `eventTranslationNL` dictionary of the source. -/
def eventTranslationNL : EventClass → String
  | .Birth => "Geboorte"
  | .Baptism => "Doop"
  | .Death => "Overlijden"
  | .Burial => "Begrafenis"
  | .Marriage => "Huwelijk"

/-- A person as `getEventLabel` observes it: only the `name` list of the
rdflib `Person` node is read (via `name[0]`, which raises on an empty
list). -/
structure PersonRef where
  name : List String
deriving DecidableEq

/-- An event as `getEventLabel` observes it: the class, the three
temporal fields (optional date strings) and the principal or partner
participants. -/
structure EventData where
  cls : EventClass
  hasTimeStamp : Option String
  hasEarliestBeginTimeStamp : Option String
  hasLatestEndTimeStamp : Option String
  principal : Option PersonRef
  partner : List PersonRef
deriving DecidableEq

/-- Python string slicing `s[:4]`. -/
def take4 (s : String) : String := String.mk (s.data.take 4)

/-- The year component of the label, following the four truthiness
branches of the source. -/
def eventYear (e : EventData) : String :=
  if pyTruthy e.hasTimeStamp then take4 (e.hasTimeStamp.getD "")
  else if pyTruthy e.hasEarliestBeginTimeStamp ∧ pyTruthy e.hasLatestEndTimeStamp then
    "ca. " ++ take4 (e.hasEarliestBeginTimeStamp.getD "") ++ "-" ++
      take4 (e.hasLatestEndTimeStamp.getD "")
  else if pyTruthy e.hasEarliestBeginTimeStamp then
    "ca. " ++ take4 (e.hasEarliestBeginTimeStamp.getD "") ++ "-?"
  else if pyTruthy e.hasLatestEndTimeStamp then
    "ca. ?-" ++ take4 (e.hasLatestEndTimeStamp.getD "")
  else "?"

/-- Strict lexicographic comparison of character lists by code point, the
comparison Python uses on strings. -/
def charListLt : List Char → List Char → Bool
  | _, [] => false
  | [], _ :: _ => true
  | a :: as, b :: bs => if a < b then true else if b < a then false else charListLt as bs

/-- The corresponding non-strict comparison on strings. -/
def pyStrLe (a b : String) : Bool := !charListLt b.data a.data

/-- Insertion into a sorted list, keeping earlier-inserted equal elements
in place. -/
def pyInsertSorted (a : String) : List String → List String
  | [] => [a]
  | b :: bs => if pyStrLe a b then a :: b :: bs else b :: pyInsertSorted a bs

/-- Python `sorted` on a list of strings: ascending, stable. -/
def pySorted (l : List String) : List String := l.foldr pyInsertSorted []

/-- First names of the participants: `[q.name[0] for q in l]`, raising
(modelled as `none`) when some name list is empty. -/
def firstNames : List PersonRef → Option (List String)
  | [] => some []
  | q :: rest =>
    match q.name.head? with
    | none => none
    | some n => (firstNames rest).map (fun l => n :: l)

/-- The participant block of `getEventLabel`: the principal name alone,
or the sorted partner names, or no participants. -/
def eventPersons (e : EventData) : Option (List String) :=
  match e.principal with
  | some pr => pr.name.head?.map (fun n => [n])
  | none =>
    if e.partner.isEmpty then some []
    else (firstNames e.partner).map pySorted

/-- Python `sep.join(l)`. -/
def joinWith (sep : String) : List String → String
  | [] => ""
  | [x] => x
  | x :: xs => x ++ sep ++ joinWith sep xs

/-- Embedding of `getEventLabel(event)` from src/main.py: the pair of
Dutch and English display labels, or `none` when the source raises
(an empty participant name list). -/
def getEventLabel (e : EventData) : Option (String × String) :=
  let year := eventYear e
  let nameNL := eventTranslationNL e.cls
  let nameEN := eventClassNameEN e.cls
  match eventPersons e with
  | none => none
  | some [] => some (nameNL ++ " (" ++ year ++ ")", nameEN ++ " (" ++ year ++ ")")
  | some persons => some
      (nameNL ++ " van " ++ joinWith " en " persons ++ " (" ++ year ++ ")",
       nameEN ++ " of " ++ joinWith " and " persons ++ " (" ++ year ++ ")")

/-! Order-theoretic facts about the code-point comparison, needed to show
that sorting makes the marriage label independent of partner order. -/

theorem charListLt_asymm : ∀ {a b : List Char},
    charListLt a b = true → charListLt b a = false
  | _, [], h => by simp [charListLt] at h
  | [], _ :: _, _ => by simp [charListLt]
  | x :: xs, y :: ys, h => by
    by_cases hxy : x < y
    · have hyx : ¬ y < x := lt_asymm hxy
      simp [charListLt, hxy, hyx]
    · by_cases hyx : y < x
      · simp [charListLt, hxy, hyx] at h
      · have htail : charListLt xs ys = true := by
          simpa [charListLt, hxy, hyx] using h
        have := charListLt_asymm htail
        simp [charListLt, hxy, hyx, this]

theorem charListLt_conn : ∀ {a b : List Char},
    charListLt a b = false → charListLt b a = false → a = b
  | [], [], _, _ => rfl
  | [], _ :: _, h, _ => by simp [charListLt] at h
  | _ :: _, [], _, h => by simp [charListLt] at h
  | x :: xs, y :: ys, h1, h2 => by
    by_cases hxy : x < y
    · simp [charListLt, hxy] at h1
    · by_cases hyx : y < x
      · simp [charListLt, hyx] at h2
      · have hx : x = y := le_antisymm (le_of_not_lt hyx) (le_of_not_lt hxy)
        have ht1 : charListLt xs ys = false := by
          simpa [charListLt, hxy, hyx] using h1
        have ht2 : charListLt ys xs = false := by
          simpa [charListLt, hxy, hyx] using h2
        rw [hx, charListLt_conn ht1 ht2]

theorem charListLt_trans : ∀ {a b c : List Char},
    charListLt a b = true → charListLt b c = true → charListLt a c = true
  | _, [], _, h1, h2 => by simp [charListLt] at h1
  | _, _ :: _, [], h1, h2 => by simp [charListLt] at h2
  | [], y :: ys, z :: zs, h1, h2 => by simp [charListLt]
  | x :: xs, y :: ys, z :: zs, h1, h2 => by
    by_cases hxy : x < y
    · by_cases hyz : y < z
      · have hxz : x < z := lt_trans hxy hyz
        simp [charListLt, hxz]
      · by_cases hzy : z < y
        · simp [charListLt, hyz, hzy] at h2
        · have hyz2 : y = z := le_antisymm (le_of_not_lt hzy) (le_of_not_lt hyz)
          subst hyz2
          simp [charListLt, hxy]
    · by_cases hyx : y < x
      · simp [charListLt, hxy, hyx] at h1
      · have hx : x = y := le_antisymm (le_of_not_lt hyx) (le_of_not_lt hxy)
        subst hx
        have ht1 : charListLt xs ys = true := by
          simpa [charListLt, hxy, hyx] using h1
        by_cases hyz : x < z
        · simp [charListLt, hyz]
        · by_cases hzy : z < x
          · simp [charListLt, hyz, hzy] at h2
          · have ht2 : charListLt ys zs = true := by
              simpa [charListLt, hyz, hzy] using h2
            simp [charListLt, hyz, hzy, charListLt_trans ht1 ht2]

theorem pyStrLe_total (a b : String) : pyStrLe a b = true ∨ pyStrLe b a = true := by
  by_cases h : charListLt b.data a.data = true
  · right
    simp [pyStrLe, charListLt_asymm h]
  · left
    simp [pyStrLe] at h ⊢
    exact h

theorem pyStrLe_trans {a b c : String}
    (h1 : pyStrLe a b = true) (h2 : pyStrLe b c = true) : pyStrLe a c = true := by
  simp only [pyStrLe, Bool.not_eq_true'] at h1 h2 ⊢
  cases hca : charListLt c.data a.data with
  | false => rfl
  | true =>
    cases hab : charListLt a.data b.data with
    | true =>
      rw [charListLt_trans hca hab] at h2
      simp at h2
    | false =>
      have hd : a.data = b.data := charListLt_conn hab h1
      rw [hd] at hca
      rw [hca] at h2
      simp at h2

theorem pyStrLe_antisymm {a b : String}
    (h1 : pyStrLe a b = true) (h2 : pyStrLe b a = true) : a = b := by
  simp only [pyStrLe, Bool.not_eq_true'] at h1 h2
  have hd : a.data = b.data := charListLt_conn h2 h1
  calc a = String.mk a.data := (mk_data_eq a).symm
    _ = String.mk b.data := by rw [hd]
    _ = b := mk_data_eq b

theorem pyInsertSorted_perm (a : String) :
    ∀ l : List String, (pyInsertSorted a l).Perm (a :: l)
  | [] => List.Perm.refl [a]
  | b :: bs => by
    by_cases h : pyStrLe a b = true
    · simp [pyInsertSorted, h]
    · simp only [pyInsertSorted, h, if_false]
      exact ((pyInsertSorted_perm a bs).cons b).trans (List.Perm.swap a b bs)

theorem pySorted_perm : ∀ l : List String, (pySorted l).Perm l
  | [] => List.Perm.refl []
  | x :: xs => by
    have h1 : pySorted (x :: xs) = pyInsertSorted x (pySorted xs) := rfl
    rw [h1]
    exact (pyInsertSorted_perm x (pySorted xs)).trans ((pySorted_perm xs).cons x)

theorem pyInsertSorted_pairwise (a : String) :
    ∀ {l : List String}, l.Pairwise (fun u v => pyStrLe u v = true) →
      (pyInsertSorted a l).Pairwise (fun u v => pyStrLe u v = true)
  | [], _ => by simp [pyInsertSorted]
  | b :: bs, hp => by
    rcases List.pairwise_cons.mp hp with ⟨hb, hbs⟩
    by_cases h : pyStrLe a b = true
    · simp only [pyInsertSorted, h, if_true]
      refine List.pairwise_cons.mpr ⟨?_, hp⟩
      intro x hx
      rcases List.mem_cons.mp hx with rfl | hx
      · exact h
      · exact pyStrLe_trans h (hb x hx)
    · have hba : pyStrLe b a = true := (pyStrLe_total a b).resolve_left h
      simp only [pyInsertSorted, h, if_false]
      refine List.pairwise_cons.mpr ⟨?_, pyInsertSorted_pairwise a hbs⟩
      intro x hx
      have hx2 : x ∈ a :: bs := (pyInsertSorted_perm a bs).mem_iff.mp hx
      rcases List.mem_cons.mp hx2 with rfl | hx2
      · exact hba
      · exact hb x hx2

theorem pySorted_pairwise :
    ∀ l : List String, (pySorted l).Pairwise (fun u v => pyStrLe u v = true)
  | [] => List.Pairwise.nil
  | x :: xs => pyInsertSorted_pairwise x (pySorted_pairwise xs)

theorem pySorted_perm_inv {l1 l2 : List String} (h : l1.Perm l2) :
    pySorted l1 = pySorted l2 := by
  haveI : IsAntisymm String (fun u v => pyStrLe u v = true) :=
    ⟨fun _ _ h1 h2 => pyStrLe_antisymm h1 h2⟩
  exact List.eq_of_perm_of_sorted
    ((pySorted_perm l1).trans (h.trans (pySorted_perm l2).symm))
    (pySorted_pairwise l1) (pySorted_pairwise l2)

theorem firstNames_none : ∀ {l : List PersonRef},
    (∃ q ∈ l, q.name = []) → firstNames l = none
  | [], h => by simp at h
  | q :: rest, h => by
    rcases h with ⟨p, hp, hpn⟩
    rcases List.mem_cons.mp hp with rfl | hp
    · simp [firstNames, hpn]
    · cases hq : q.name.head? with
      | none => simp [firstNames, hq]
      | some n => simp [firstNames, hq, firstNames_none ⟨p, hp, hpn⟩]

theorem firstNames_some : ∀ {l : List PersonRef},
    (∀ q ∈ l, q.name ≠ []) →
      firstNames l = some (l.map (fun q => q.name.headD ""))
  | [], _ => rfl
  | q :: rest, h => by
    have hq : q.name ≠ [] := h q (List.mem_cons_self q rest)
    have hrest : ∀ p ∈ rest, p.name ≠ [] := fun p hp => h p (List.mem_cons_of_mem q hp)
    cases hn : q.name with
    | nil => exact absurd hn hq
    | cons n ns =>
      simp [firstNames, hn, firstNames_some hrest]

theorem eventPersons_marriage_perm (ts eb le : Option String)
    {p1 p2 : List PersonRef} (h : p1.Perm p2) :
    eventPersons ⟨.Marriage, ts, eb, le, none, p1⟩
      = eventPersons ⟨.Marriage, ts, eb, le, none, p2⟩ := by
  simp only [eventPersons]
  by_cases hp : p1 = []
  · subst hp
    have : p2 = [] := h.symm.eq_nil
    subst this
    rfl
  · have hp2 : p2 ≠ [] := fun he => hp ((he ▸ h).eq_nil)
    have he1 : p1.isEmpty = false := by simpa using hp
    have he2 : p2.isEmpty = false := by simpa using hp2
    have hif1 : ¬ (p1.isEmpty = true) := by simp [he1]
    have hif2 : ¬ (p2.isEmpty = true) := by simp [he2]
    rw [if_neg hif1, if_neg hif2]
    by_cases hall : ∀ q ∈ p1, q.name ≠ []
    · have hall2 : ∀ q ∈ p2, q.name ≠ [] := fun q hq => hall q (h.mem_iff.mpr hq)
      rw [firstNames_some hall, firstNames_some hall2]
      have hs := pySorted_perm_inv (h.map (fun q => q.name.headD ""))
      show some (pySorted (p1.map (fun q => q.name.headD "")))
        = some (pySorted (p2.map (fun q => q.name.headD "")))
      rw [hs]
    · push_neg at hall
      rcases hall with ⟨q, hq, hqn⟩
      rw [firstNames_none ⟨q, hq, hqn⟩,
        firstNames_none ⟨q, h.mem_iff.mp hq, hqn⟩]

/-- Claim C9: the marriage label sorts the participant names, so it is
invariant under any permutation of the partner list; and for a marriage
of "Jan" and "Anna" with an exact timestamp in year 1650 the Dutch and
English labels are as the spec states. -/
theorem getEventLabel_marriage_sorted :
    (∀ (ts eb le : Option String) (p1 p2 : List PersonRef), p1.Perm p2 →
      getEventLabel ⟨.Marriage, ts, eb, le, none, p1⟩
        = getEventLabel ⟨.Marriage, ts, eb, le, none, p2⟩) ∧
    getEventLabel ⟨.Marriage, some "1650-01-01", none, none, none,
        [⟨["Jan"]⟩, ⟨["Anna"]⟩]⟩
      = some ("Huwelijk van Anna en Jan (1650)", "Marriage of Anna and Jan (1650)") := by
  constructor
  · intro ts eb le p1 p2 h
    simp only [getEventLabel]
    rw [eventPersons_marriage_perm ts eb le h]
    rfl
  · decide

/-- Witness for `getEventLabel_marriage_sorted`: the two orders of the
partner pair ("Jan", "Anna") produce the same labels. -/
theorem getEventLabel_marriage_sorted_witness :
    getEventLabel ⟨.Marriage, some "1650-01-01", none, none, none,
        [⟨["Jan"]⟩, ⟨["Anna"]⟩]⟩
      = getEventLabel ⟨.Marriage, some "1650-01-01", none, none, none,
        [⟨["Anna"]⟩, ⟨["Jan"]⟩]⟩ :=
  getEventLabel_marriage_sorted.1 (some "1650-01-01") none none
    [⟨["Jan"]⟩, ⟨["Anna"]⟩] [⟨["Anna"]⟩, ⟨["Jan"]⟩]
    (List.Perm.swap (⟨["Anna"]⟩ : PersonRef) (⟨["Jan"]⟩ : PersonRef) [])

/-! Thesaurus resolution: `getThesaurus` from src/main.py.  The two
locale fetches (`parseThesaurusURL` over HTTP) are external collaborators
and appear as function parameters `fNL`/`fEN`; a term page without data
is `none`.  The shared cache dictionary is an association list threaded
through the calls.  The outer `Option` of the result models a raised
exception. -/

/-- The dictionary returned by `parseThesaurusURL` for one locale. -/
structure TermData where
  title : String
  description : Option String
  broader : List String
  narrower : List String
  related : List String
  targets : List String
  aat : Option String
deriving DecidableEq

/-- One entry of the thesaurus cache dictionary, as built at
src/main.py:678-689. -/
structure CacheEntry where
  identifier : String
  url : String
  titleNL : String
  titleEN : String
  descriptionNL : Option String
  broader : List String
  narrower : List String
  related : List String
  targets : List String
  aat : Option String
deriving DecidableEq

/-- The thesaurus cache dictionary, keyed by identifier. -/
def Cache : Type := List (String × CacheEntry)

/-- Dictionary lookup, `cachedict.get(identifier)`. -/
def cacheGet (c : Cache) (identifier : String) : Option CacheEntry :=
  List.lookup identifier c

/-- Dictionary insertion, `cachedict[identifier] = data`. -/
def cachePut (c : Cache) (identifier : String) (e : CacheEntry) : Cache :=
  (identifier, e) :: c

/-- The `nsThesaurus` namespace of the source. -/
def nsThesaurus (identifier : String) : String :=
  "https://data.create.humanities.uva.nl/id/rkd/thesaurus/" ++ identifier

/-- A resolution result: a bare URI reference, or a fully expanded
`skos:Concept` node with labels, note, edge expansions and same-as
links.  `prefLabel` pairs a label with its language tag. -/
inductive ThesRes where
  | uriRef (url : String)
  | concept (url : String) (prefLabel : List (String × String)) (note : List String)
      (related : List ThesRes) (broader : List ThesRes) (narrower : List ThesRes)
      (sameAs : List String)

/-- The merged cache entry built from the two locale fetches
(src/main.py:678-689): structural edges and description from the NL
data, titles from both. -/
def mkEntry (identifier uri : String) (dnl den : TermData) : CacheEntry :=
  { identifier := identifier, url := uri, titleNL := dnl.title, titleEN := den.title,
    descriptionNL := dnl.description, broader := dnl.broader, narrower := dnl.narrower,
    related := dnl.related, targets := dnl.targets, aat := dnl.aat }

/-- The fetch-and-cache step of `getThesaurus` (src/main.py:668-696).
Outcomes: `none` — the merge raised (`dataNL or dataEN` was truthy but
one of them is `None`, so subscripting it with `title` raises a
`TypeError`); `some none` — neither locale yielded a term, the miss is
not cached and the caller returns `None`; `some (some (entry, cache))` —
a cached or freshly merged entry together with the possibly grown
cache. -/
def ensureCached (fNL fEN : String → Option TermData) (identifier uri : String)
    (cachedict : Cache) : Option (Option (CacheEntry × Cache)) :=
  match cacheGet cachedict identifier with
  | some entry => some (some (entry, cachedict))
  | none =>
    let dataNL := fNL identifier
    let dataEN := fEN identifier
    if dataNL.isSome || dataEN.isSome then
      match dataNL, dataEN with
      | some dnl, some den =>
        some (some (mkEntry identifier uri dnl den,
          cachePut cachedict identifier (mkEntry identifier uri dnl den)))
      | _, _ => none
    else some none

mutual

/-- Embedding of `getThesaurus(identifier, cachedict, returnType)` from
src/main.py.  The depth guard increments `recursionDepth` and returns the
bare URI reference once it reaches `maxRecursionDepth`; the recursive
neighbor resolution in `resolveList` passes the incremented depth and the
default ceiling 2, exactly as the source does (the keyword-argument
`maxRecursionDepth` is not forwarded).  The result pairs an optional
`ThesRes` (`none` models the `return None, cachedict` paths) with the
updated cache; the outer `Option` models a raised exception. -/
def getThesaurus (fNL fEN : String → Option TermData) (identifier : String)
    (cachedict : Cache) (returnType : String)
    (recursionDepth maxRecursionDepth : Nat) : Option (Option ThesRes × Cache) :=
  let uri := nsThesaurus identifier
  let rd := recursionDepth + 1
  if _h : maxRecursionDepth ≤ rd then some (some (.uriRef uri), cachedict)
  else
    match ensureCached fNL fEN identifier uri cachedict with
    | none => none
    | some none => some (none, cachedict)
    | some (some (entry, cache1)) =>
      match resolveList fNL fEN entry.broader cache1 returnType rd with
      | none => none
      | some (broaders, cache2) =>
        match resolveList fNL fEN entry.narrower cache2 returnType rd with
        | none => none
        | some (narrowers, cache3) =>
          match resolveList fNL fEN entry.related cache3 returnType rd with
          | none => none
          | some (relateds, cache4) =>
            if returnType = "uri" then some (some (.uriRef entry.url), cache4)
            else if returnType = "concept" then
              some (some (.concept entry.url
                [(entry.titleNL, "nl"), (entry.titleEN, "en")]
                (match entry.descriptionNL with | some d => [d] | none => [])
                relateds broaders narrowers
                (match entry.aat with | some a => [a] | none => [])), cache4)
            else some (none, cache4)
termination_by (maxRecursionDepth - recursionDepth, 0)

/-- One neighbor loop of `getThesaurus` (src/main.py:698-724): resolve
each identifier with the incremented depth and the default ceiling 2,
thread the cache, and keep the truthy results in order. -/
def resolveList (fNL fEN : String → Option TermData) (ids : List String)
    (cachedict : Cache) (returnType : String) (rd : Nat) :
    Option (List ThesRes × Cache) :=
  match ids with
  | [] => some ([], cachedict)
  | i :: rest =>
    match getThesaurus fNL fEN i cachedict returnType rd 2 with
    | none => none
    | some (res, cache1) =>
      match resolveList fNL fEN rest cache1 returnType rd with
      | none => none
      | some (ress, cache2) =>
        some ((match res with | some r => [r] | none => []) ++ ress, cache2)
termination_by (2 - rd, ids.length)

end

/-- The keyword loop of `parseData` (src/main.py:324-330): each keyword
identifier is resolved with `returnType='uri'` and the default depths,
the cache is threaded, and every result — even `None` — is appended. -/
def resolveKeywords (fNL fEN : String → Option TermData) (ids : List String)
    (cachedict : Cache) : Option (List (Option ThesRes) × Cache) :=
  match ids with
  | [] => some ([], cachedict)
  | k :: rest =>
    match getThesaurus fNL fEN k cachedict "uri" 0 2 with
    | none => none
    | some (concept, cache1) =>
      match resolveKeywords fNL fEN rest cache1 with
      | none => none
      | some (l, cache2) => some (concept :: l, cache2)

mutual

/-- Expansion depth of a resolution result: a bare reference is depth 0,
a concept node is one more than the deepest of its edge expansions. -/
def thesDepth : ThesRes → Nat
  | .uriRef _ => 0
  | .concept _ _ _ rel bro nar _ =>
    1 + max (thesDepthList rel) (max (thesDepthList bro) (thesDepthList nar))

/-- Maximal depth of a list of resolution results. -/
def thesDepthList : List ThesRes → Nat
  | [] => 0
  | r :: rs => max (thesDepth r) (thesDepthList rs)

end

/-- Expansion depth of a full `getThesaurus` outcome. -/
def resDepth : Option (Option ThesRes × Cache) → Nat
  | some (some r, _) => thesDepth r
  | _ => 0

theorem getThesaurus_ceiling (fNL fEN : String → Option TermData)
    (identifier : String) (cachedict : Cache) (returnType : String)
    {recursionDepth maxRecursionDepth : Nat}
    (h : maxRecursionDepth ≤ recursionDepth + 1) :
    getThesaurus fNL fEN identifier cachedict returnType recursionDepth maxRecursionDepth
      = some (some (.uriRef (nsThesaurus identifier)), cachedict) := by
  rw [getThesaurus]
  simp [h]

theorem resolveList_deep (fNL fEN : String → Option TermData)
    (returnType : String) {rd : Nat} (h : 1 ≤ rd) :
    ∀ (ids : List String) (cachedict : Cache),
      resolveList fNL fEN ids cachedict returnType rd
        = some (ids.map (fun i => ThesRes.uriRef (nsThesaurus i)), cachedict)
  | [], cachedict => by
    rw [resolveList]
    simp
  | i :: rest, cachedict => by
    rw [resolveList, getThesaurus_ceiling fNL fEN i cachedict returnType (by omega)]
    simp [resolveList_deep fNL fEN returnType h rest cachedict]

theorem thesDepthList_map_uriRef (f : String → String) :
    ∀ ids : List String, thesDepthList (ids.map (fun i => ThesRes.uriRef (f i))) = 0
  | [] => rfl
  | i :: rest => by
    rw [List.map_cons, thesDepthList, thesDepth, thesDepthList_map_uriRef f rest]
    simp

/-- Claim C3: for every cache dictionary — including ones whose
broader/narrower/related identifier lists form cycles — `getThesaurus`
terminates (it is a total function of this shallow embedding, accepted by
the termination checker with the measure `maxRecursionDepth -
recursionDepth`); once the incremented depth reaches the ceiling the call
returns the bare identifier reference with the cache untouched, and the
expansion depth of any result never exceeds the remaining depth
budget. -/
theorem getThesaurus_depth_bounded :
    ∀ (fNL fEN : String → Option TermData) (identifier : String)
      (cachedict : Cache) (returnType : String) (r M : Nat),
      (M ≤ r + 1 →
        getThesaurus fNL fEN identifier cachedict returnType r M
          = some (some (.uriRef (nsThesaurus identifier)), cachedict)) ∧
      resDepth (getThesaurus fNL fEN identifier cachedict returnType r M) ≤ M - r := by
  intro fNL fEN identifier cachedict returnType r M
  refine ⟨fun h => getThesaurus_ceiling fNL fEN identifier cachedict returnType h, ?_⟩
  by_cases hM : M ≤ r + 1
  · rw [getThesaurus_ceiling fNL fEN identifier cachedict returnType hM]
    simp [resDepth, thesDepth]
  · have hM2 : r + 1 < M := by omega
    rw [getThesaurus]
    rw [dif_neg hM]
    cases he : ensureCached fNL fEN identifier (nsThesaurus identifier) cachedict with
    | none => simp [resDepth]
    | some oe =>
      cases oe with
      | none => simp [resDepth]
      | some pr =>
        obtain ⟨entry, cache1⟩ := pr
        have h1 : (1 : Nat) ≤ r + 1 := by omega
        simp only [resolveList_deep fNL fEN returnType h1]
        by_cases hu : returnType = "uri"
        · simp [hu, resDepth, thesDepth]
        · by_cases hcpt : returnType = "concept"
          · rw [if_neg hu, if_pos hcpt]
            simp [resDepth, thesDepth, thesDepthList_map_uriRef]
            omega
          · simp [hu, hcpt, resDepth]

/-- A synthetic concept cycle: A has broader B, B has broader A. -/
def entryA : CacheEntry :=
  { identifier := "A", url := nsThesaurus "A", titleNL := "a", titleEN := "a",
    descriptionNL := none, broader := ["B"], narrower := [], related := [],
    targets := [], aat := none }

/-- The second half of the synthetic cycle. -/
def entryB : CacheEntry :=
  { identifier := "B", url := nsThesaurus "B", titleNL := "b", titleEN := "b",
    descriptionNL := none, broader := ["A"], narrower := [], related := [],
    targets := [], aat := none }

/-- A cache whose broader edges form the cycle A → B → A. -/
def cycCache : Cache := [("A", entryA), ("B", entryB)]

/-- A fetch that never yields a term (irrelevant for cached
identifiers). -/
def noFetch : String → Option TermData := fun _ => none

/-- Witness for `getThesaurus_depth_bounded` on the cyclic cache: at the
ceiling the call returns the bare reference and leaves the cache alone,
and a full resolution of A with ceiling 3 stays within depth 3. -/
theorem getThesaurus_depth_bounded_witness :
    getThesaurus noFetch noFetch "A" cycCache "concept" 2 3
      = some (some (.uriRef (nsThesaurus "A")), cycCache) ∧
    resDepth (getThesaurus noFetch noFetch "A" cycCache "concept" 0 3) ≤ 3 - 0 :=
  ⟨(getThesaurus_depth_bounded noFetch noFetch "A" cycCache "concept" 2 3).1 (by decide),
   (getThesaurus_depth_bounded noFetch noFetch "A" cycCache "concept" 0 3).2⟩

/-- Full resolution of the cyclic cache terminates and closes the cycle
with a bare back-reference: resolving A in concept mode with ceiling 3
expands A one level and leaves its broader neighbor B as a bare
reference. -/
theorem getThesaurus_cycle_example :
    getThesaurus noFetch noFetch "A" cycCache "concept" 0 3
      = some (some (.concept (nsThesaurus "A") [("a", "nl"), ("a", "en")] []
          [] [.uriRef (nsThesaurus "B")] [] []), cycCache) := by
  rw [getThesaurus]
  rw [dif_neg (by omega : ¬ (3 ≤ 0 + 1))]
  have he : ensureCached noFetch noFetch "A" (nsThesaurus "A") cycCache
      = some (some (entryA, cycCache)) := by
    rw [ensureCached]
    have : cacheGet cycCache "A" = some entryA := by
      simp [cacheGet, cycCache]
    rw [this]
  rw [he]
  simp only [resolveList_deep noFetch noFetch "concept" (by omega : (1 : Nat) ≤ 0 + 1)]
  simp [entryA]

theorem getThesaurus_unresolved {fNL fEN : String → Option TermData}
    {identifier : String} {cachedict : Cache} (returnType : String)
    {r M : Nat} (hM : r + 1 < M)
    (hc : cacheGet cachedict identifier = none)
    (hnl : fNL identifier = none) (hen : fEN identifier = none) :
    getThesaurus fNL fEN identifier cachedict returnType r M
      = some (none, cachedict) := by
  rw [getThesaurus]
  rw [dif_neg (by omega : ¬ (M ≤ r + 1))]
  have he : ensureCached fNL fEN identifier (nsThesaurus identifier) cachedict
      = some none := by
    rw [ensureCached, hc]
    simp [hnl, hen]
  rw [he]

/-- Claim C4: when neither locale source yields a term for an identifier
that is not in the cache, `getThesaurus` returns the unresolved result
`None` together with the cache unchanged — the miss is not inserted, so a
later call reaches the fetch again — and in the keyword loop of
`parseData` the failed identifier merely contributes `None` while
resolution of the remaining sibling identifiers continues on the same
cache. -/
theorem getThesaurus_unresolved_no_poison :
    ∀ (fNL fEN : String → Option TermData) (k : String) (cachedict : Cache)
      (rest : List String) (returnType : String) (r M : Nat),
      cacheGet cachedict k = none → fNL k = none → fEN k = none →
      (r + 1 < M →
        getThesaurus fNL fEN k cachedict returnType r M = some (none, cachedict)) ∧
      resolveKeywords fNL fEN (k :: rest) cachedict
        = Option.map (fun p => ((none : Option ThesRes) :: p.1, p.2))
            (resolveKeywords fNL fEN rest cachedict) := by
  intro fNL fEN k cachedict rest returnType r M hc hnl hen
  refine ⟨fun hM => getThesaurus_unresolved returnType hM hc hnl hen, ?_⟩
  rw [resolveKeywords, getThesaurus_unresolved "uri" (by omega) hc hnl hen]
  cases hrk : resolveKeywords fNL fEN rest cachedict with
  | none => simp [hrk]
  | some p => simp [hrk]

/-- Witness for `getThesaurus_unresolved_no_poison` at the empty cache
and an always-empty fetch, with sibling list `["Y"]`. -/
theorem getThesaurus_unresolved_no_poison_witness :
    getThesaurus noFetch noFetch "X" ([] : Cache) "uri" 0 2 = some (none, ([] : Cache)) ∧
    resolveKeywords noFetch noFetch ["X", "Y"] ([] : Cache)
      = Option.map (fun p => ((none : Option ThesRes) :: p.1, p.2))
          (resolveKeywords noFetch noFetch ["Y"] ([] : Cache)) :=
  ⟨(getThesaurus_unresolved_no_poison noFetch noFetch "X" ([] : Cache) ["Y"] "uri" 0 2
      rfl rfl rfl).1 (by omega),
   (getThesaurus_unresolved_no_poison noFetch noFetch "X" ([] : Cache) ["Y"] "uri" 0 2
      rfl rfl rfl).2⟩

/-- Claim C6: when the two locale fetches disagree on presence — exactly
one of them yields a term — `getThesaurus` raises while building the
merged cache entry (it subscripts both results for their titles), instead
of returning a resolved concept or the unresolved `None`; the raise is
modelled as the outer `none`. -/
theorem getThesaurus_mixed_presence_raises :
    ∀ (fNL fEN : String → Option TermData) (identifier : String)
      (cachedict : Cache) (returnType : String) (r M : Nat),
      r + 1 < M → cacheGet cachedict identifier = none →
      (fNL identifier).isSome ≠ (fEN identifier).isSome →
      getThesaurus fNL fEN identifier cachedict returnType r M = none := by
  intro fNL fEN identifier cachedict returnType r M hM hc hmix
  rw [getThesaurus]
  rw [dif_neg (by omega : ¬ (M ≤ r + 1))]
  have he : ensureCached fNL fEN identifier (nsThesaurus identifier) cachedict
      = none := by
    rw [ensureCached, hc]
    cases hnl : fNL identifier with
    | none =>
      cases hen : fEN identifier with
      | none => rw [hnl, hen] at hmix; simp at hmix
      | some den => simp [hnl, hen]
    | some dnl =>
      cases hen : fEN identifier with
      | none => simp [hnl, hen]
      | some den => rw [hnl, hen] at hmix; simp at hmix
  rw [he]

/-- A stub term datum for the mixed-presence witness. -/
def tdStub : TermData :=
  { title := "t", description := none, broader := [], narrower := [],
    related := [], targets := [], aat := none }

/-- A fetch that yields `tdStub` for every identifier. -/
def allFetch : String → Option TermData := fun _ => some tdStub

/-- Witness for `getThesaurus_mixed_presence_raises`: with an NL fetch
that yields a term and an EN fetch that yields none, resolution of a
fresh identifier raises. -/
theorem getThesaurus_mixed_presence_raises_witness :
    getThesaurus allFetch noFetch "X" ([] : Cache) "uri" 0 2 = none :=
  getThesaurus_mixed_presence_raises allFetch noFetch "X" ([] : Cache) "uri" 0 2
    (by omega) rfl (by decide)

/-! Family relations: the father/mother/children block of `parseData`
(src/main.py:468-512) and the marriage block of `getPerson`
(src/main.py:892-936).  Entities carry their relation lists as lists of
identities, matching the triples asserted on the rdflib nodes. -/

/-- The `nsPerson` namespace of the source. -/
def nsPersonTerm (s : String) : String :=
  "https://data.create.humanities.uva.nl/id/rkd/persons/" ++ s

/-- An entity identity: a namespaced URI for externally numbered persons,
or the blank node minted by `unique` for anonymous ones. -/
inductive PersId where
  | uri (u : String)
  | bnode (b : String)
deriving DecidableEq

/-- A person node with the relation lists the claims concern. -/
structure PersonEntity where
  id : PersId
  name : List String
  children : List PersId
  parent : List PersId
  spouse : List PersId
deriving DecidableEq

/-- The first element of a `vader`/`moeder` block: the numeric person
reference and the composed name. -/
structure RawParent where
  id : Nat
  name : String
deriving DecidableEq

/-- The first element of a `kind` block inside `kinderen`. -/
structure RawChildEntry where
  id : Nat
  name : String
deriving DecidableEq

/-- One `huwelijk` block as read by `getPerson`. -/
structure RawMarriage where
  marriageDate : Option String
  marriagePartner : Option String
  marriagePartnerIdentifier : Option Nat
  marriagePartnerNameWithIdentifier : Option String
  marriagePlace : Option String
  marriagePlaceIdentifier : Option Nat
deriving DecidableEq

/-- One depicted-person block, restricted to the fields the family
mapping reads. -/
structure PersonBlock where
  persoonsnummer : Nat
  vader : Option RawParent
  naam_vader : Option String
  moeder : Option RawParent
  naam_moeder : Option String
  kinderen : List RawChildEntry
  huwelijk : List RawMarriage

/-- The father entities of a block (src/main.py:471-483): an externally
numbered father, or an anonymous one minted by
`unique(persoonsnummer, naam_vader)`, each created with
`children=[pURI]`. -/
def fatherEntities (p : PersonBlock) (pid : PersId) : List PersonEntity :=
  match p.vader with
  | some fd =>
    [{ id := .uri (nsPersonTerm (toString fd.id)), name := [fd.name],
       children := [pid], parent := [], spouse := [] }]
  | none =>
    match p.naam_vader with
    | some nm =>
      [{ id := .bnode (unique [toString p.persoonsnummer, nm]), name := [nm],
         children := [pid], parent := [], spouse := [] }]
    | none => []

/-- The mother entities of a block (src/main.py:486-498), symmetric to
the fathers. -/
def motherEntities (p : PersonBlock) (pid : PersId) : List PersonEntity :=
  match p.moeder with
  | some md =>
    [{ id := .uri (nsPersonTerm (toString md.id)), name := [md.name],
       children := [pid], parent := [], spouse := [] }]
  | none =>
    match p.naam_moeder with
    | some nm =>
      [{ id := .bnode (unique [toString p.persoonsnummer, nm]), name := [nm],
         children := [pid], parent := [], spouse := [] }]
    | none => []

/-- The family part of `parseData` for one person block: the owning
person (with its `parent` and `children` assignments from
src/main.py:511-512) together with the created parent and child
entities. -/
def parseDataFamily (p : PersonBlock) :
    PersonEntity × List PersonEntity × List PersonEntity :=
  let pid := PersId.uri (nsPersonTerm (toString p.persoonsnummer))
  let parents := fatherEntities p pid ++ motherEntities p pid
  let children := p.kinderen.map (fun k =>
    { id := .uri (nsPersonTerm (toString k.id)), name := [k.name],
      children := [], parent := [pid], spouse := [] })
  ({ id := pid, name := [], children := children.map (fun e => e.id),
     parent := parents.map (fun e => e.id), spouse := [] }, parents, children)

/-- The truthiness guard of the marriage loop (src/main.py:894-895). -/
def marriageRelevant (m : RawMarriage) : Bool :=
  m.marriagePlace.isSome || m.marriageDate.isSome ||
    m.marriagePartner.isSome || m.marriagePartnerIdentifier.isSome

/-- The partner entity of one marriage block (src/main.py:905-923): an
externally numbered partner, or an anonymous one minted by
`unique(identifier, marriagePartner)`, or none; a created partner gets
`spouse = [person]` immediately. -/
def mkMarriagePartner (ownerNum : Nat) (ownerId : PersId) (m : RawMarriage) :
    Option PersonEntity :=
  match m.marriagePartnerIdentifier with
  | some pn =>
    some { id := .uri (nsPersonTerm (toString pn)),
           name := match m.marriagePartnerNameWithIdentifier with
             | some nm => [nm]
             | none => [],
           children := [], parent := [], spouse := [ownerId] }
  | none =>
    match m.marriagePartner with
    | some nm =>
      some { id := .bnode (unique [toString ownerNum, nm]), name := [nm],
             children := [], parent := [], spouse := [ownerId] }
    | none => none

/-- The marriage part of `getPerson` for one person block: the person
(with `spouse = spouses` from src/main.py:936) and the created partner
entities. -/
def getPersonMarriages (p : PersonBlock) : PersonEntity × List PersonEntity :=
  let pid := PersId.uri (nsPersonTerm (toString p.persoonsnummer))
  let spouses := (p.huwelijk.filter marriageRelevant).filterMap
    (mkMarriagePartner p.persoonsnummer pid)
  ({ id := pid, name := [], children := [], parent := [],
     spouse := spouses.map (fun e => e.id) }, spouses)

theorem fatherEntities_children {p : PersonBlock} {pid : PersId}
    {e : PersonEntity} (h : e ∈ fatherEntities p pid) : e.children = [pid] := by
  unfold fatherEntities at h
  cases hv : p.vader with
  | some fd =>
    rw [hv] at h
    simp at h
    rw [h]
  | none =>
    rw [hv] at h
    cases hn : p.naam_vader with
    | some nm =>
      rw [hn] at h
      simp at h
      rw [h]
    | none =>
      rw [hn] at h
      simp at h

theorem motherEntities_children {p : PersonBlock} {pid : PersId}
    {e : PersonEntity} (h : e ∈ motherEntities p pid) : e.children = [pid] := by
  unfold motherEntities at h
  cases hv : p.moeder with
  | some md =>
    rw [hv] at h
    simp at h
    rw [h]
  | none =>
    rw [hv] at h
    cases hn : p.naam_moeder with
    | some nm =>
      rw [hn] at h
      simp at h
      rw [h]
    | none =>
      rw [hn] at h
      simp at h

theorem mkMarriagePartner_spouse {ownerNum : Nat} {ownerId : PersId}
    {m : RawMarriage} {e : PersonEntity}
    (h : mkMarriagePartner ownerNum ownerId m = some e) : e.spouse = [ownerId] := by
  unfold mkMarriagePartner at h
  cases hid : m.marriagePartnerIdentifier with
  | some pn =>
    rw [hid] at h
    simp at h
    rw [← h]
  | none =>
    rw [hid] at h
    cases hp : m.marriagePartner with
    | some nm =>
      rw [hp] at h
      simp at h
      rw [← h]
    | none =>
      rw [hp] at h
      simp at h

/-- Claim C10: family links are created symmetrically — every parent
entity created for a person block lists the owning person among its
children while the person lists it among its parents; every child entity
lists the person among its parents while the person lists it among its
children; and every created marriage partner lists the person as spouse
while the person lists the partner as spouse. -/
theorem family_links_symmetric :
    ∀ p : PersonBlock,
      (∀ e ∈ (parseDataFamily p).2.1,
        (parseDataFamily p).1.id ∈ e.children ∧
          e.id ∈ (parseDataFamily p).1.parent) ∧
      (∀ e ∈ (parseDataFamily p).2.2,
        (parseDataFamily p).1.id ∈ e.parent ∧
          e.id ∈ (parseDataFamily p).1.children) ∧
      (∀ e ∈ (getPersonMarriages p).2,
        (getPersonMarriages p).1.id ∈ e.spouse ∧
          e.id ∈ (getPersonMarriages p).1.spouse) := by
  intro p
  refine ⟨?_, ?_, ?_⟩
  · intro e he
    simp only [parseDataFamily] at he ⊢
    constructor
    · rcases List.mem_append.mp he with hf | hm
      · rw [fatherEntities_children hf]
        exact List.mem_singleton.mpr rfl
      · rw [motherEntities_children hm]
        exact List.mem_singleton.mpr rfl
    · exact List.mem_map_of_mem (fun e => e.id) he
  · intro e he
    simp only [parseDataFamily] at he ⊢
    constructor
    · rcases List.mem_map.mp he with ⟨k, _, hk⟩
      rw [← hk]
      exact List.mem_singleton.mpr rfl
    · exact List.mem_map_of_mem (fun e => e.id) he
  · intro e he
    simp only [getPersonMarriages] at he ⊢
    constructor
    · rcases List.mem_filterMap.mp he with ⟨m, _, hm⟩
      rw [mkMarriagePartner_spouse hm]
      exact List.mem_singleton.mpr rfl
    · exact List.mem_map_of_mem (fun e => e.id) he

/-- A concrete person block with an anonymous father, one child and one
anonymous marriage partner. -/
def witBlock : PersonBlock :=
  { persoonsnummer := 1, vader := none, naam_vader := some "Piet",
    moeder := none, naam_moeder := none,
    kinderen := [⟨2, "Kees"⟩],
    huwelijk := [⟨none, some "Anna", none, none, none, none⟩] }

/-- The father entity created for `witBlock`. -/
def witFather : PersonEntity :=
  { id := .bnode (unique [toString (1 : Nat), "Piet"]), name := ["Piet"],
    children := [.uri (nsPersonTerm (toString (1 : Nat)))], parent := [], spouse := [] }

/-- The child entity created for `witBlock`. -/
def witChild : PersonEntity :=
  { id := .uri (nsPersonTerm (toString (2 : Nat))), name := ["Kees"],
    children := [], parent := [.uri (nsPersonTerm (toString (1 : Nat)))], spouse := [] }

/-- The marriage partner entity created for `witBlock`. -/
def witPartner : PersonEntity :=
  { id := .bnode (unique [toString (1 : Nat), "Anna"]), name := ["Anna"],
    children := [], parent := [],
    spouse := [.uri (nsPersonTerm (toString (1 : Nat)))] }

/-- Witness for `family_links_symmetric` at the concrete block. -/
theorem family_links_symmetric_witness :
    ((parseDataFamily witBlock).1.id ∈ witFather.children ∧
      witFather.id ∈ (parseDataFamily witBlock).1.parent) ∧
    ((parseDataFamily witBlock).1.id ∈ witChild.parent ∧
      witChild.id ∈ (parseDataFamily witBlock).1.children) ∧
    ((getPersonMarriages witBlock).1.id ∈ witPartner.spouse ∧
      witPartner.id ∈ (getPersonMarriages witBlock).1.spouse) :=
  ⟨(family_links_symmetric witBlock).1 witFather (by decide),
   (family_links_symmetric witBlock).2.1 witChild (by decide),
   (family_links_symmetric witBlock).2.2 witPartner (by decide)⟩
